import Mathlib

/-!
Shallow embedding of `src/tusclient/uploader/uploader.py` (tus-py-client):
the resumable-upload engine (`Uploader`, `StreamUploader`) with its
create/transmit/verify/retry cycle.  HTTP transport is modelled as an
oracle (`Transport`) indexed by ghost attempt counters kept in the
session state; exceptions are modelled with `Except`/`Option` results.
-/

namespace TusClient

/-- Response of one chunk-transmission request (`TusRequest`): the fields
of `request` read by the engine (`status_code`, the `upload-offset`
response header, `response_content`).  A missing `upload-offset` header is
`none`. -/
structure Response where
  statusCode : Nat
  uploadOffset : Option Int
  body : String
deriving Repr, DecidableEq

/-- Response of the resource-creation POST: status code, the optional
`location` header and the raw body. -/
structure CreateResponse where
  statusCode : Nat
  location : Option String
  body : String
deriving Repr, DecidableEq

/-- Payload of a `TusCommunicationError` raised by the offset query
(`get_offset`): message, status code and response body. -/
structure CommFailure where
  msg : String
  statusCode : Nat
  body : String
deriving Repr, DecidableEq

/-- The exceptions the engine can surface: `TusUploadFailed`,
`TusCommunicationError`, and the TypeError Python raises when
`int(None)` is evaluated on a missing `upload-offset` header. -/
inductive TusError where
  | uploadFailed (msg : String) (statusCode : Nat) (body : String)
  | communicationError (msg : String) (statusCode : Nat) (body : String)
  | typeErr
deriving Repr, DecidableEq

/-- Re-raise the data of a failed offset query as the
`TusCommunicationError` caught in `_retry_or_cry`. -/
def CommFailure.toErr (f : CommFailure) : TusError :=
  .communicationError f.msg f.statusCode f.body

/-- Oracle for the network: the outcome of the n-th chunk transmission
(`perform`, keyed by how many transmissions happened before), of the n-th
stream-mode transmission (`sperform`, also given the injected chunk), of
the n-th offset query (`getOffset`) and of the n-th creation POST
(`create`); `fileSize` models `get_file_size()` of the chunk source. -/
structure Transport where
  perform : Nat → Response
  sperform : Nat → Option (List Nat) → Response
  getOffset : Nat → Except CommFailure Int
  create : Nat → CreateResponse
  fileSize : Int

/-- Mutable state of an upload session (`BaseUploader` fields used by the
engine).  `sentCount`, `headCount` and `createCount` are ghost counters of
performed transmissions, offset queries and creation calls; they only
index the `Transport` oracle. -/
structure Session where
  clientUrl : String
  url : Option String
  offset : Int
  stopAt : Int
  chunkSize : Int
  retries : Nat
  retryDelay : Nat
  retried : Nat
  request : Option Response
  sentCount : Nat
  headCount : Nat
  createCount : Nat
deriving Repr, DecidableEq

/-- Python truthiness of `self.url` as used by `if not self.url:`:
`None` and the empty string are falsy. -/
def urlFalsy : Option String → Bool
  | none => true
  | some s => s.isEmpty

/-- Model of `urllib.parse.urljoin(base, url)` as used by `create_url`:
an absolute location stands alone, a relative one is resolved against the
base. -/
def urljoin (base url : String) : String :=
  if url.startsWith "http" then url else base ++ url

/-- `_verify_upload` (uploader.py lines 17-22): status 204 is success,
anything else raises `TusUploadFailed` with empty message, the status
code and the response body. -/
def verify_upload (r : Response) : Except TusError Bool :=
  if r.statusCode = 204 then Except.ok true
  else Except.error (.uploadFailed "" r.statusCode r.body)

/-- `Uploader.create_url` (lines 174-188): POST to `client.url`; if the
response has no `location` header raise `TusCommunicationError` with the
formatted message, status code and body, else return the location joined
against `client.url`. -/
def create_url (t : Transport) (s : Session) : Session × Except TusError String :=
  let resp := t.create s.createCount
  let s1 := { s with createCount := s.createCount + 1 }
  match resp.location with
  | none => (s1, Except.error (.communicationError
      ("Attempt to retrieve create file url with status " ++ toString resp.statusCode)
      resp.statusCode resp.body))
  | some url => (s1, Except.ok (urljoin s1.clientUrl url))

/-- Modelled from the spec: `BaseUploader.get_offset` (baseuploader.py is
not under src/) performs a HEAD offset query against the upload url and
returns the server offset, raising `TusCommunicationError` on failure. -/
def get_offset (t : Transport) (s : Session) : Session × Except CommFailure Int :=
  ({ s with headCount := s.headCount + 1 }, t.getOffset s.headCount)

mutual

/-- `Uploader._do_request` (lines 190-196): perform one transmission,
store it as `self.request`, verify it; on `TusUploadFailed` enter
`_retry_or_cry` with that error. -/
def do_request (t : Transport) (s : Session) : Session × Option TusError :=
  let resp := t.perform s.sentCount
  let s1 := { s with request := some resp, sentCount := s.sentCount + 1 }
  match verify_upload resp with
  | Except.ok _ => (s1, none)
  | Except.error e => retry_or_cry t s1 e
termination_by 2 * (s.retries - s.retried) + 1
decreasing_by all_goals simp_wf

/-- `Uploader._retry_or_cry` (lines 198-210): while retries remain, sleep
(no observable effect here), increment `_retried`, query the offset; a
`TusCommunicationError` from the query re-enters recovery with that
error, otherwise retry the transmission from the corrected offset; with
the budget exhausted, raise the error that was passed in. -/
def retry_or_cry (t : Transport) (s : Session) (error : TusError) :
    Session × Option TusError :=
  if s.retries > s.retried then
    let s1 := { s with retried := s.retried + 1, headCount := s.headCount + 1 }
    match t.getOffset s.headCount with
    | Except.error err => retry_or_cry t s1 err.toErr
    | Except.ok off => do_request t { s1 with offset := off }
  else (s, some error)
termination_by 2 * (s.retries - s.retried)
decreasing_by all_goals (simp_wf; omega)

end

/-- Lines 171-172 of `upload_chunk`: run `_do_request`, then set
`self.offset = int(self.request.response_headers.get(..))`, reading the
upload-offset header;
a missing header makes `int(None)` raise a TypeError. -/
def finish_chunk (t : Transport) (s : Session) : Session × Option TusError :=
  match do_request t s with
  | (s1, some e) => (s1, some e)
  | (s1, none) =>
    match s1.request with
    | some resp =>
      match resp.uploadOffset with
      | some v => ({ s1 with offset := v }, none)
      | none => (s1, some TusError.typeErr)
    | none => (s1, some TusError.typeErr)

/-- `Uploader.upload_chunk` (lines 163-172): reset `_retried`; if the url
is falsy, create it and reset the offset to 0; then transmit and record
the server-reported offset. -/
def upload_chunk (t : Transport) (s : Session) : Session × Option TusError :=
  if urlFalsy s.url then
    match create_url t { s with retried := 0 } with
    | (s1, Except.error e) => (s1, some e)
    | (s1, Except.ok u) => finish_chunk t { s1 with url := some u, offset := 0 }
  else finish_chunk t { s with retried := 0 }

/-- `stop_at or self.get_file_size()` (line 142): Python `or` falls back
to the file size when `stop_at` is `None` or `0`. -/
def resolve_stop_at (stopAt : Option Int) (fileSize : Int) : Int :=
  match stopAt with
  | none => fileSize
  | some n => if n = 0 then fileSize else n

/-- The `while self.offset < self.stop_at: self.upload_chunk()` loop of
`upload` (lines 153-158), fuel-indexed; progress display is pure
presentation and is omitted. -/
def upload_loop (t : Transport) : Nat → Session → Session × Option TusError
  | 0, s => (s, none)
  | Nat.succ fuel, s =>
    if s.offset < s.stopAt then
      match upload_chunk t s with
      | (s1, none) => upload_loop t fuel s1
      | (s1, some e) => (s1, some e)
    else (s, none)

/-- `Uploader.upload` (lines 128-161) and the identical
`AsyncUploader.upload` loop: resolve `stop_at`, then repeat
`upload_chunk` while `offset < stop_at`. -/
def upload (t : Transport) (stopAt : Option Int) (fuel : Nat) (s : Session) :
    Session × Option TusError :=
  upload_loop t fuel { s with stopAt := resolve_stop_at stopAt t.fileSize }

/-! ### The streaming variant (`StreamUploader`, lines 25-83) -/

/-- `StreamUploader` state: the session fields plus the externally
injected `chunk` (set by `set_current_chunk`). -/
structure StreamSession extends Session where
  chunk : Option (List Nat)
deriving Repr, DecidableEq

/-- `StreamUploader.set_current_chunk` (lines 43-44). -/
def set_current_chunk (s : StreamSession) (c : List Nat) : StreamSession :=
  { s with chunk := some c }

/-- `StreamUploader.create_url` (lines 47-61), textually identical to
`Uploader.create_url`. -/
def screate_url (t : Transport) (s : StreamSession) :
    StreamSession × Except TusError String :=
  let resp := t.create s.createCount
  let s1 := { s with createCount := s.createCount + 1 }
  match resp.location with
  | none => (s1, Except.error (.communicationError
      ("Attempt to retrieve create file url with status " ++ toString resp.statusCode)
      resp.statusCode resp.body))
  | some url => (s1, Except.ok (urljoin s1.clientUrl url))

mutual

/-- `StreamUploader._do_request` (lines 63-69): as the synchronous one,
but the request is a `TusStreamRequest` performed on `self.chunk`. -/
def sdo_request (t : Transport) (s : StreamSession) :
    StreamSession × Option TusError :=
  let resp := t.sperform s.sentCount s.chunk
  let s1 := { s with request := some resp, sentCount := s.sentCount + 1 }
  match verify_upload resp with
  | Except.ok _ => (s1, none)
  | Except.error e => sretry_or_cry t s1 e
termination_by 2 * (s.retries - s.retried) + 1
decreasing_by all_goals simp_wf

/-- `StreamUploader._retry_or_cry` (lines 71-83), textually identical to
`Uploader._retry_or_cry`. -/
def sretry_or_cry (t : Transport) (s : StreamSession) (error : TusError) :
    StreamSession × Option TusError :=
  if s.retries > s.retried then
    let s1 := { s with retried := s.retried + 1, headCount := s.headCount + 1 }
    match t.getOffset s.headCount with
    | Except.error err => sretry_or_cry t s1 err.toErr
    | Except.ok off => sdo_request t { s1 with offset := off }
  else (s, some error)
termination_by 2 * (s.retries - s.retried)
decreasing_by all_goals (simp_wf; omega)

end

/-- Lines 40-41 of `StreamUploader.upload_chunk`: transmit with recovery
then record the server-reported offset. -/
def sfinish_chunk (t : Transport) (s : StreamSession) :
    StreamSession × Option TusError :=
  match sdo_request t s with
  | (s1, some e) => (s1, some e)
  | (s1, none) =>
    match s1.request with
    | some resp =>
      match resp.uploadOffset with
      | some v => ({ s1 with offset := v }, none)
      | none => (s1, some TusError.typeErr)
    | none => (s1, some TusError.typeErr)

/-- `StreamUploader.upload_chunk` (lines 32-41), textually identical to
`Uploader.upload_chunk` except that the transmission sends `self.chunk`. -/
def supload_chunk (t : Transport) (s : StreamSession) :
    StreamSession × Option TusError :=
  if urlFalsy s.url then
    match screate_url t { s with retried := 0 } with
    | (s1, Except.error e) => (s1, some e)
    | (s1, Except.ok u) => sfinish_chunk t { s1 with url := some u, offset := 0 }
  else sfinish_chunk t { s with retried := 0 }

/-! ### Invariance of the retry cycle over the configuration fields -/

/-- Fields `_do_request` and `_retry_or_cry` never change, plus a bound
on the retry counter. -/
def FieldsInv (s r : Session) : Prop :=
  r.url = s.url ∧ r.createCount = s.createCount ∧ r.retries = s.retries ∧
  r.clientUrl = s.clientUrl ∧ r.stopAt = s.stopAt ∧ r.chunkSize = s.chunkSize ∧
  (s.retried ≤ s.retries → r.retried ≤ s.retries)

lemma fieldsInv_refl (s : Session) : FieldsInv s s :=
  ⟨rfl, rfl, rfl, rfl, rfl, rfl, fun h => h⟩

lemma inv_aux (t : Transport) :
    ∀ k : Nat,
      (∀ s e, s.retries - s.retried = k → FieldsInv s (retry_or_cry t s e).1) ∧
      (∀ s, s.retries - s.retried = k → FieldsInv s (do_request t s).1) := by
  intro k
  induction k with
  | zero =>
    have hroc : ∀ s e, s.retries - s.retried = 0 → FieldsInv s (retry_or_cry t s e).1 := by
      intro s e hk
      rw [retry_or_cry]
      have hnlt : ¬ s.retries > s.retried := by omega
      simp only [hnlt, if_false]
      exact fieldsInv_refl s
    refine ⟨hroc, ?_⟩
    intro s hk
    rw [do_request]
    simp only [verify_upload]
    by_cases h204 : (t.perform s.sentCount).statusCode = 204
    · simp only [h204, if_pos rfl]
      exact ⟨rfl, rfl, rfl, rfl, rfl, rfl, fun h => h⟩
    · simp only [if_neg h204]
      exact hroc _ _ hk
  | succ k ih =>
    have hroc : ∀ s e, s.retries - s.retried = k + 1 →
        FieldsInv s (retry_or_cry t s e).1 := by
      intro s e hk
      rw [retry_or_cry]
      have hlt : s.retries > s.retried := by omega
      simp only [hlt, if_true]
      cases hg : t.getOffset s.headCount with
      | error err =>
        have hmeas : s.retries - (s.retried + 1) = k := by omega
        obtain ⟨h1, h2, h3, h4, h5, h6, h7⟩ :=
          ih.1 { s with retried := s.retried + 1, headCount := s.headCount + 1 }
            err.toErr hmeas
        have h7' : s.retried + 1 ≤ s.retries →
            (retry_or_cry t
              { s with retried := s.retried + 1, headCount := s.headCount + 1 }
              err.toErr).1.retried ≤ s.retries := h7
        exact ⟨h1, h2, h3, h4, h5, h6, fun _ => h7' (by omega)⟩
      | ok off =>
        have hmeas : s.retries - (s.retried + 1) = k := by omega
        obtain ⟨h1, h2, h3, h4, h5, h6, h7⟩ :=
          ih.2 { s with retried := s.retried + 1, headCount := s.headCount + 1,
                        offset := off } hmeas
        have h7' : s.retried + 1 ≤ s.retries →
            (do_request t
              { s with retried := s.retried + 1, headCount := s.headCount + 1,
                       offset := off }).1.retried ≤ s.retries := h7
        exact ⟨h1, h2, h3, h4, h5, h6, fun _ => h7' (by omega)⟩
    refine ⟨hroc, ?_⟩
    intro s hk
    rw [do_request]
    simp only [verify_upload]
    by_cases h204 : (t.perform s.sentCount).statusCode = 204
    · simp only [h204, if_pos rfl]
      exact ⟨rfl, rfl, rfl, rfl, rfl, rfl, fun h => h⟩
    · simp only [if_neg h204]
      exact hroc _ _ hk

/-! ### Helper characterisations used by several claims -/

lemma urlFalsy_some_of_ne (u : String) (hne : u ≠ "") :
    urlFalsy (some u) = false := by
  simp only [urlFalsy]
  rw [Bool.eq_false_iff]
  intro h
  exact hne ((String.isEmpty_iff u).mp h)

/-! ### Exact behaviour when every transmission fails and every offset
query succeeds -/

/-- The error `_retry_or_cry` surfaces when entered with `k` attempts of
budget left and every transmission failing: the passed-in error when the
budget is exhausted, else the failure of the last transmission tried. -/
def rocFailErr (t : Transport) (s : Session) (e : TusError) (k : Nat) : TusError :=
  match k with
  | 0 => e
  | Nat.succ j => .uploadFailed "" (t.perform (s.sentCount + j)).statusCode
      (t.perform (s.sentCount + j)).body

lemma allfail_aux (t : Transport)
    (Hp : ∀ n, (t.perform n).statusCode ≠ 204)
    (Hg : ∀ n, ∃ v, t.getOffset n = Except.ok v) :
    ∀ k : Nat,
      (∀ s e, s.retries - s.retried = k →
        (retry_or_cry t s e).1.sentCount = s.sentCount + k ∧
        (retry_or_cry t s e).2 = some (rocFailErr t s e k)) ∧
      (∀ s, s.retries - s.retried = k →
        (do_request t s).1.sentCount = s.sentCount + k + 1 ∧
        (do_request t s).2 = some (.uploadFailed ""
          (t.perform (s.sentCount + k)).statusCode
          (t.perform (s.sentCount + k)).body)) := by
  intro k
  induction k with
  | zero =>
    have hroc : ∀ s e, s.retries - s.retried = 0 →
        (retry_or_cry t s e).1.sentCount = s.sentCount + 0 ∧
        (retry_or_cry t s e).2 = some (rocFailErr t s e 0) := by
      intro s e hk
      rw [retry_or_cry]
      have hnlt : ¬ s.retries > s.retried := by omega
      simp only [hnlt, if_false]
      exact ⟨rfl, rfl⟩
    refine ⟨hroc, ?_⟩
    intro s hk
    rw [do_request]
    simp only [verify_upload, if_neg (Hp s.sentCount)]
    obtain ⟨h1, h2⟩ :=
      hroc { s with request := some (t.perform s.sentCount),
                    sentCount := s.sentCount + 1 }
        (.uploadFailed "" (t.perform s.sentCount).statusCode
          (t.perform s.sentCount).body) hk
    exact ⟨h1, h2⟩
  | succ k ih =>
    have hroc : ∀ s e, s.retries - s.retried = k + 1 →
        (retry_or_cry t s e).1.sentCount = s.sentCount + (k + 1) ∧
        (retry_or_cry t s e).2 = some (rocFailErr t s e (k + 1)) := by
      intro s e hk
      rw [retry_or_cry]
      have hlt : s.retries > s.retried := by omega
      simp only [hlt, if_true]
      obtain ⟨v, hv⟩ := Hg s.headCount
      simp only [hv]
      have hmeas : s.retries - (s.retried + 1) = k := by omega
      obtain ⟨h1, h2⟩ :=
        ih.2 { s with retried := s.retried + 1, headCount := s.headCount + 1,
                      offset := v } hmeas
      have h1' : (do_request t
          { s with retried := s.retried + 1, headCount := s.headCount + 1,
                   offset := v }).1.sentCount = s.sentCount + k + 1 := h1
      refine ⟨by omega, ?_⟩
      exact h2
    refine ⟨hroc, ?_⟩
    intro s hk
    rw [do_request]
    simp only [verify_upload, if_neg (Hp s.sentCount)]
    obtain ⟨h1, h2⟩ :=
      hroc { s with request := some (t.perform s.sentCount),
                    sentCount := s.sentCount + 1 }
        (.uploadFailed "" (t.perform s.sentCount).statusCode
          (t.perform s.sentCount).body) hk
    have h1' : (retry_or_cry t
        { s with request := some (t.perform s.sentCount),
                 sentCount := s.sentCount + 1 }
        (.uploadFailed "" (t.perform s.sentCount).statusCode
          (t.perform s.sentCount).body)).1.sentCount
        = s.sentCount + 1 + (k + 1) := h1
    have h2' : (retry_or_cry t
        { s with request := some (t.perform s.sentCount),
                 sentCount := s.sentCount + 1 }
        (.uploadFailed "" (t.perform s.sentCount).statusCode
          (t.perform s.sentCount).body)).2
        = some (.uploadFailed "" (t.perform (s.sentCount + 1 + k)).statusCode
            (t.perform (s.sentCount + 1 + k)).body) := h2
    have hidx : s.sentCount + 1 + k = s.sentCount + (k + 1) := by omega
    rw [hidx] at h2'
    refine ⟨by omega, h2'⟩

/-! ### Offset lower bound under a non-regressing server -/

lemma offset_aux (t : Transport) (c : Int)
    (Hg : ∀ n v, t.getOffset n = Except.ok v → c ≤ v) :
    ∀ k : Nat,
      (∀ s e, s.retries - s.retried = k → c ≤ s.offset →
        c ≤ (retry_or_cry t s e).1.offset ∧
        ((retry_or_cry t s e).2 = none →
          ∃ m, (retry_or_cry t s e).1.request = some (t.perform m))) ∧
      (∀ s, s.retries - s.retried = k → c ≤ s.offset →
        c ≤ (do_request t s).1.offset ∧
        ((do_request t s).2 = none →
          ∃ m, (do_request t s).1.request = some (t.perform m))) := by
  intro k
  induction k with
  | zero =>
    have hroc : ∀ s e, s.retries - s.retried = 0 → c ≤ s.offset →
        c ≤ (retry_or_cry t s e).1.offset ∧
        ((retry_or_cry t s e).2 = none →
          ∃ m, (retry_or_cry t s e).1.request = some (t.perform m)) := by
      intro s e hk hc
      rw [retry_or_cry]
      have hnlt : ¬ s.retries > s.retried := by omega
      simp only [hnlt, if_false]
      exact ⟨hc, by intro h; cases h⟩
    refine ⟨hroc, ?_⟩
    intro s hk hc
    rw [do_request]
    simp only [verify_upload]
    by_cases h204 : (t.perform s.sentCount).statusCode = 204
    · simp only [h204, if_pos rfl]
      exact ⟨hc, fun _ => ⟨s.sentCount, rfl⟩⟩
    · simp only [if_neg h204]
      exact hroc _ _ hk hc
  | succ k ih =>
    have hroc : ∀ s e, s.retries - s.retried = k + 1 → c ≤ s.offset →
        c ≤ (retry_or_cry t s e).1.offset ∧
        ((retry_or_cry t s e).2 = none →
          ∃ m, (retry_or_cry t s e).1.request = some (t.perform m)) := by
      intro s e hk hc
      rw [retry_or_cry]
      have hlt : s.retries > s.retried := by omega
      simp only [hlt, if_true]
      cases hg : t.getOffset s.headCount with
      | error err =>
        have hmeas : s.retries - (s.retried + 1) = k := by omega
        exact ih.1 { s with retried := s.retried + 1, headCount := s.headCount + 1 }
          err.toErr hmeas hc
      | ok off =>
        have hmeas : s.retries - (s.retried + 1) = k := by omega
        exact ih.2 { s with retried := s.retried + 1, headCount := s.headCount + 1,
                            offset := off } hmeas (Hg s.headCount off hg)
    refine ⟨hroc, ?_⟩
    intro s hk hc
    rw [do_request]
    simp only [verify_upload]
    by_cases h204 : (t.perform s.sentCount).statusCode = 204
    · simp only [h204, if_pos rfl]
      exact ⟨hc, fun _ => ⟨s.sentCount, rfl⟩⟩
    · simp only [if_neg h204]
      exact hroc _ _ hk hc

lemma do_request_inv (t : Transport) (s : Session) :
    FieldsInv s (do_request t s).1 :=
  (inv_aux t (s.retries - s.retried)).2 s rfl

lemma retry_or_cry_inv (t : Transport) (s : Session) (e : TusError) :
    FieldsInv s (retry_or_cry t s e).1 :=
  (inv_aux t (s.retries - s.retried)).1 s e rfl

/-! ### Per-call lemmas about `upload_chunk` -/

lemma urljoin_ne_empty (base u : String) (h : base ≠ "") : urljoin base u ≠ "" := by
  intro he
  unfold urljoin at he
  by_cases hsw : u.startsWith "http"
  · rw [if_pos hsw] at he
    subst he
    exact absurd hsw (by decide)
  · rw [if_neg hsw] at he
    apply h
    have hd := congrArg String.data he
    rw [String.data_append] at hd
    have hb : base.data = [] := (List.append_eq_nil.mp hd).1
    apply String.ext
    rw [hb]

lemma finish_chunk_fields (t : Transport) (s : Session) :
    (finish_chunk t s).1.url = s.url ∧
    (finish_chunk t s).1.createCount = s.createCount ∧
    (finish_chunk t s).1.clientUrl = s.clientUrl ∧
    (s.retried ≤ s.retries → (finish_chunk t s).1.retried ≤ s.retries) := by
  obtain ⟨h1, h2, h3, h4, h5, h6, h7⟩ := do_request_inv t s
  unfold finish_chunk
  rcases hdr : do_request t s with ⟨s1, e⟩
  rw [hdr] at h1 h2 h4 h7
  cases e with
  | some err => exact ⟨h1, h2, h4, h7⟩
  | none =>
    dsimp only
    rcases hreq : s1.request with _ | resp
    · exact ⟨h1, h2, h4, h7⟩
    · dsimp only
      rcases hoff : resp.uploadOffset with _ | v
      · exact ⟨h1, h2, h4, h7⟩
      · exact ⟨h1, h2, h4, h7⟩

lemma upload_chunk_nonfalsy (t : Transport) (s : Session)
    (hu : urlFalsy s.url = false) :
    (upload_chunk t s).1.url = s.url ∧
    (upload_chunk t s).1.createCount = s.createCount ∧
    (upload_chunk t s).1.clientUrl = s.clientUrl ∧
    (upload_chunk t s).1.retried ≤ s.retries := by
  unfold upload_chunk
  rw [if_neg (by rw [hu]; exact Bool.false_ne_true)]
  obtain ⟨h1, h2, h3, h4⟩ := finish_chunk_fields t { s with retried := 0 }
  exact ⟨h1, h2, h3, h4 (Nat.zero_le _)⟩

lemma upload_chunk_falsy (t : Transport) (s : Session)
    (hu : urlFalsy s.url = true) (hcl : s.clientUrl ≠ "") :
    (upload_chunk t s).1.createCount = s.createCount + 1 ∧
    (upload_chunk t s).1.clientUrl = s.clientUrl ∧
    ((upload_chunk t s).2 = none → urlFalsy (upload_chunk t s).1.url = false) ∧
    (upload_chunk t s).1.retried ≤ s.retries := by
  unfold upload_chunk create_url
  rw [if_pos hu]
  dsimp only
  rcases hloc : (t.create s.createCount).location with _ | loc
  · dsimp only
    refine ⟨rfl, rfl, ?_, Nat.zero_le _⟩
    intro h
    cases h
  · dsimp only
    obtain ⟨h1, h2, h3, h4⟩ := finish_chunk_fields t
      { s with retried := 0, createCount := s.createCount + 1,
               url := some (urljoin s.clientUrl loc), offset := 0 }
    refine ⟨h2, h3, ?_, h4 (Nat.zero_le _)⟩
    intro _
    have h1' : (finish_chunk t
        { s with retried := 0, createCount := s.createCount + 1,
                 url := some (urljoin s.clientUrl loc), offset := 0 }).1.url
        = some (urljoin s.clientUrl loc) := h1
    show urlFalsy (finish_chunk t
        { s with retried := 0, createCount := s.createCount + 1,
                 url := some (urljoin s.clientUrl loc), offset := 0 }).1.url = false
    rw [h1']
    simp only [urlFalsy]
    rw [Bool.eq_false_iff]
    intro hemp
    exact urljoin_ne_empty s.clientUrl loc hcl ((String.isEmpty_iff _).mp hemp)

lemma upload_chunk_retried_le (t : Transport) (s : Session) :
    (upload_chunk t s).1.retried ≤ s.retries := by
  unfold upload_chunk create_url
  by_cases hu : urlFalsy s.url = true
  · rw [if_pos hu]
    dsimp only
    rcases hloc : (t.create s.createCount).location with _ | loc
    · dsimp only
      exact Nat.zero_le _
    · dsimp only
      exact (finish_chunk_fields t _).2.2.2 (Nat.zero_le _)
  · rw [if_neg hu]
    exact (finish_chunk_fields t _).2.2.2 (Nat.zero_le _)

lemma upload_chunk_offset_le (t : Transport) (s : Session) (c : Int)
    (hu : urlFalsy s.url = false)
    (Hp : ∀ n v, (t.perform n).uploadOffset = some v → c ≤ v)
    (Hg : ∀ n v, t.getOffset n = Except.ok v → c ≤ v)
    (hc : c ≤ s.offset) : c ≤ (upload_chunk t s).1.offset := by
  unfold upload_chunk
  rw [if_neg (by rw [hu]; exact Bool.false_ne_true)]
  unfold finish_chunk
  obtain ⟨hoff, hreqp⟩ :=
    (offset_aux t c Hg (s.retries - 0)).2 { s with retried := 0 } rfl hc
  rcases hdr : do_request t { s with retried := 0 } with ⟨s1, e⟩
  rw [hdr] at hoff hreqp
  cases e with
  | some err => exact hoff
  | none =>
    dsimp only
    obtain ⟨m, hm⟩ := hreqp rfl
    rw [hm]
    dsimp only
    rcases hoff2 : (t.perform m).uploadOffset with _ | v
    · exact hoff
    · exact Hp m v hoff2

/-! ### Streaming and synchronous retry cycles agree when the transport
outcomes agree -/

lemma stream_sync_aux (t : Transport)
    (Hsp : ∀ n c, t.sperform n c = t.perform n) :
    ∀ k : Nat,
      (∀ (ss : StreamSession) e, ss.retries - ss.retried = k →
        (sretry_or_cry t ss e).1.toSession = (retry_or_cry t ss.toSession e).1 ∧
        (sretry_or_cry t ss e).1.chunk = ss.chunk ∧
        (sretry_or_cry t ss e).2 = (retry_or_cry t ss.toSession e).2) ∧
      (∀ ss : StreamSession, ss.retries - ss.retried = k →
        (sdo_request t ss).1.toSession = (do_request t ss.toSession).1 ∧
        (sdo_request t ss).1.chunk = ss.chunk ∧
        (sdo_request t ss).2 = (do_request t ss.toSession).2) := by
  intro k
  induction k with
  | zero =>
    have hroc : ∀ (ss : StreamSession) e, ss.retries - ss.retried = 0 →
        (sretry_or_cry t ss e).1.toSession = (retry_or_cry t ss.toSession e).1 ∧
        (sretry_or_cry t ss e).1.chunk = ss.chunk ∧
        (sretry_or_cry t ss e).2 = (retry_or_cry t ss.toSession e).2 := by
      intro ss e hk
      rw [sretry_or_cry, retry_or_cry]
      have hnlt : ¬ ss.retries > ss.retried := by omega
      simp only [hnlt, if_false]
      refine ⟨?_, ?_, ?_⟩ <;> first | rfl | trivial
    refine ⟨hroc, ?_⟩
    intro ss hk
    rw [sdo_request, do_request]
    rw [Hsp]
    simp only [verify_upload]
    by_cases h204 : (t.perform ss.sentCount).statusCode = 204
    · simp only [h204, if_pos rfl]
      exact ⟨rfl, rfl, rfl⟩
    · simp only [if_neg h204]
      exact hroc _ _ hk
  | succ k ih =>
    have hroc : ∀ (ss : StreamSession) e, ss.retries - ss.retried = k + 1 →
        (sretry_or_cry t ss e).1.toSession = (retry_or_cry t ss.toSession e).1 ∧
        (sretry_or_cry t ss e).1.chunk = ss.chunk ∧
        (sretry_or_cry t ss e).2 = (retry_or_cry t ss.toSession e).2 := by
      intro ss e hk
      rw [sretry_or_cry, retry_or_cry]
      have hlt : ss.retries > ss.retried := by omega
      simp only [hlt, if_true]
      cases hg : t.getOffset ss.headCount with
      | error err =>
        have hmeas : ss.retries - (ss.retried + 1) = k := by omega
        exact ih.1
          { ss with retried := ss.retried + 1, headCount := ss.headCount + 1 }
          err.toErr hmeas
      | ok off =>
        have hmeas : ss.retries - (ss.retried + 1) = k := by omega
        exact ih.2
          { ss with retried := ss.retried + 1, headCount := ss.headCount + 1,
                    offset := off } hmeas
    refine ⟨hroc, ?_⟩
    intro ss hk
    rw [sdo_request, do_request]
    rw [Hsp]
    simp only [verify_upload]
    by_cases h204 : (t.perform ss.sentCount).statusCode = 204
    · simp only [h204, if_pos rfl]
      exact ⟨rfl, rfl, rfl⟩
    · simp only [if_neg h204]
      exact hroc _ _ hk

/-! ### The upload loop: creation happens at most once, url is stable -/

lemma upload_loop_create (t : Transport) :
    ∀ fuel s, s.clientUrl ≠ "" →
      s.createCount ≤ 1 → (urlFalsy s.url = true → s.createCount = 0) →
      (upload_loop t fuel s).1.createCount ≤ 1 := by
  intro fuel
  induction fuel with
  | zero =>
    intro s hcl h1 h2
    simpa only [upload_loop] using h1
  | succ fuel ih =>
    intro s hcl h1 h2
    simp only [upload_loop]
    by_cases hlt : s.offset < s.stopAt
    · rw [if_pos hlt]
      rcases huc : upload_chunk t s with ⟨s1, e⟩
      by_cases hu : urlFalsy s.url = true
      · obtain ⟨hc1, hc2, hc3, _⟩ := upload_chunk_falsy t s hu hcl
        rw [huc] at hc1 hc2 hc3
        have hzero : s.createCount = 0 := h2 hu
        cases e with
        | none =>
          apply ih s1
          · rw [hc2]
            exact hcl
          · dsimp only at hc1
            omega
          · intro h
            rw [hc3 rfl] at h
            cases h
        | some err =>
          dsimp only
          dsimp only at hc1
          omega
      · have hu' : urlFalsy s.url = false := by
          revert hu
          cases urlFalsy s.url <;> simp
        obtain ⟨hn1, hn2, hn3, _⟩ := upload_chunk_nonfalsy t s hu'
        rw [huc] at hn1 hn2 hn3
        cases e with
        | none =>
          apply ih s1
          · rw [hn3]
            exact hcl
          · dsimp only at hn2
            omega
          · intro h
            dsimp only at hn1
            rw [hn1, hu'] at h
            cases h
        | some err =>
          dsimp only
          dsimp only at hn2
          omega
    · rw [if_neg hlt]
      dsimp only
      exact h1

lemma upload_loop_url (t : Transport) :
    ∀ fuel s u, s.url = some u → u ≠ "" →
      (upload_loop t fuel s).1.url = some u := by
  intro fuel
  induction fuel with
  | zero =>
    intro s u hurl hne
    simpa only [upload_loop] using hurl
  | succ fuel ih =>
    intro s u hurl hne
    simp only [upload_loop]
    by_cases hlt : s.offset < s.stopAt
    · rw [if_pos hlt]
      have hu' : urlFalsy s.url = false := by
        rw [hurl]
        exact urlFalsy_some_of_ne u hne
      obtain ⟨hn1, _, _, _⟩ := upload_chunk_nonfalsy t s hu'
      rcases huc : upload_chunk t s with ⟨s1, e⟩
      rw [huc] at hn1
      cases e with
      | none =>
        apply ih s1 u _ hne
        rw [hn1]
        exact hurl
      | some err =>
        dsimp only
        rw [hn1]
        exact hurl
    · rw [if_neg hlt]
      exact hurl

/-! ### Whole-call characterisations of `upload_chunk` -/

lemma upload_chunk_allfail (t : Transport) (s : Session)
    (hu : urlFalsy s.url = false)
    (Hp : ∀ n, (t.perform n).statusCode ≠ 204)
    (Hg : ∀ n, ∃ v, t.getOffset n = Except.ok v) :
    (upload_chunk t s).1.sentCount = s.sentCount + s.retries + 1 ∧
    (upload_chunk t s).2 = some (.uploadFailed ""
      (t.perform (s.sentCount + s.retries)).statusCode
      (t.perform (s.sentCount + s.retries)).body) := by
  unfold upload_chunk
  rw [if_neg (by rw [hu]; exact Bool.false_ne_true)]
  unfold finish_chunk
  obtain ⟨h1, h2⟩ :=
    (allfail_aux t Hp Hg s.retries).2 { s with retried := 0 } (Nat.sub_zero _)
  rcases hdr : do_request t { s with retried := 0 } with ⟨s1, e⟩
  rw [hdr] at h1 h2
  dsimp only at h1 h2
  subst h2
  dsimp only
  exact ⟨h1, rfl⟩

lemma upload_chunk_success (t : Transport) (s : Session) (v : Int)
    (hu : urlFalsy s.url = false)
    (h204 : (t.perform s.sentCount).statusCode = 204)
    (hoff : (t.perform s.sentCount).uploadOffset = some v) :
    (upload_chunk t s).1.offset = v ∧ (upload_chunk t s).2 = none := by
  unfold upload_chunk
  rw [if_neg (by rw [hu]; exact Bool.false_ne_true)]
  unfold finish_chunk
  rw [do_request]
  dsimp only
  simp only [verify_upload, h204, if_pos rfl]
  rw [if_pos trivial]
  dsimp only
  rw [hoff]
  exact ⟨rfl, rfl⟩

lemma sfinish_equiv (t : Transport)
    (Hsp : ∀ n c, t.sperform n c = t.perform n) (ss : StreamSession) :
    (sfinish_chunk t ss).1.toSession = (finish_chunk t ss.toSession).1 ∧
    (sfinish_chunk t ss).1.chunk = ss.chunk ∧
    (sfinish_chunk t ss).2 = (finish_chunk t ss.toSession).2 := by
  obtain ⟨hds, hchunk, hde⟩ :=
    (stream_sync_aux t Hsp (ss.retries - ss.retried)).2 ss rfl
  unfold sfinish_chunk finish_chunk
  rcases hsdr : sdo_request t ss with ⟨ss1, se⟩
  rcases hdr : do_request t ss.toSession with ⟨s1, e⟩
  rw [hsdr] at hds hchunk hde
  rw [hdr] at hds hde
  dsimp only at hds hchunk hde
  subst hde
  cases se with
  | some err => exact ⟨hds, hchunk, rfl⟩
  | none =>
    dsimp only
    have hreq : ss1.request = s1.request := by rw [hds]
    rw [hreq]
    rcases hr : s1.request with _ | resp
    · exact ⟨hds, hchunk, rfl⟩
    · dsimp only
      rcases ho : resp.uploadOffset with _ | v
      · exact ⟨hds, hchunk, rfl⟩
      · refine ⟨?_, hchunk, rfl⟩
        dsimp only
        rw [← hds]

/-! ### Concrete sessions and transports used to instantiate the
theorems below -/

/-- A session with an already created, non-empty upload url. -/
def wBase : Session where
  clientUrl := "http://e"
  url := some "http://e/f"
  offset := 0
  stopAt := 0
  chunkSize := 1024
  retries := 0
  retryDelay := 0
  retried := 0
  request := none
  sentCount := 0
  headCount := 0
  createCount := 0

/-- Server that accepts every transmission and reports offset 512. -/
def c3t : Transport where
  perform := fun _ => ⟨204, some 512, ""⟩
  sperform := fun _ _ => ⟨204, some 512, ""⟩
  getOffset := fun _ => Except.ok 0
  create := fun _ => ⟨201, some "/f", ""⟩
  fileSize := 100

def c3s : Session := wBase

/-- Server whose creation response has no location header. -/
def c5t : Transport where
  perform := fun _ => ⟨204, some 0, ""⟩
  sperform := fun _ _ => ⟨204, some 0, ""⟩
  getOffset := fun _ => Except.ok 0
  create := fun _ => ⟨200, none, "nobody"⟩
  fileSize := 100

def c5s : Session := { wBase with url := none }

/-- Server that accepts the chunk but reports a regressed offset 512. -/
def c7t : Transport where
  perform := fun _ => ⟨204, some 512, ""⟩
  sperform := fun _ _ => ⟨204, some 512, ""⟩
  getOffset := fun _ => Except.ok 0
  create := fun _ => ⟨201, some "/f", ""⟩
  fileSize := 100

def c7s : Session := { wBase with offset := 1000 }

/-- Non-regressing server: every reported offset is at least 5. -/
def c7wt : Transport where
  perform := fun _ => ⟨204, some 7, ""⟩
  sperform := fun _ _ => ⟨204, some 7, ""⟩
  getOffset := fun _ => Except.ok 9
  create := fun _ => ⟨201, some "/f", ""⟩
  fileSize := 100

def c7ws : Session := { wBase with offset := 5 }

/-! ### The claims -/

/-- Claim C3: after a successful transmission with status 204,
`upload_chunk` records exactly the integer of the upload-offset response
header as the new offset, and returns without error, regardless of the
number of bytes sent. -/
theorem claim_C3_offset_trust (t : Transport) (s : Session) (v : Int)
    (hu : urlFalsy s.url = false)
    (h204 : (t.perform s.sentCount).statusCode = 204)
    (hoff : (t.perform s.sentCount).uploadOffset = some v) :
    (upload_chunk t s).1.offset = v ∧ (upload_chunk t s).2 = none :=
  upload_chunk_success t s v hu h204 hoff

/-- Claim C3 witness: previous offset 0, chunk size 1024, server reports
upload-offset 512: the recorded offset is 512, not 0 + 1024. -/
theorem claim_C3_witness :
    urlFalsy c3s.url = false ∧
    (upload_chunk c3t c3s).1.offset = 512 ∧
    (upload_chunk c3t c3s).2 = none ∧
    c3s.offset + c3s.chunkSize = 1024 ∧ (512 : Int) ≠ 1024 := by
  obtain ⟨h1, h2⟩ := claim_C3_offset_trust c3t c3s 512 rfl rfl rfl
  exact ⟨rfl, h1, h2, rfl, by decide⟩

/-- Claim C4 counterexample (negation of the claim): there is no
transport and session for which a single `upload_chunk` call performs
more recovery cycles than the retry budget: the final retry counter,
which counts the recovery cycles of the call, never exceeds `retries`,
because an offset-query failure re-enters recovery only after consuming
a unit of the same shared budget. -/
theorem claim_C4_counterexample :
    ¬ ∃ (t : Transport) (s : Session),
      s.retries < (upload_chunk t s).1.retried := by
  rintro ⟨t, s, h⟩
  exact absurd h (Nat.not_lt.mpr (upload_chunk_retried_le t s))

/-- Claim C4 (amended): an offset-query failure during recovery re-enters
recovery, but it consumes the same shared `_retried` budget, so a single
`upload_chunk` call never performs more recovery cycles than
`retry_limit`. -/
theorem claim_C4_amended_shared_budget (t : Transport) (s : Session) :
    (upload_chunk t s).1.retried ≤ s.retries :=
  upload_chunk_retried_le t s

/-- Claim C5: when the creation response carries no location header,
`upload_chunk` fails immediately with a `TusCommunicationError` carrying
the status code and raw body; no transmission is attempted, no retry is
consumed, and the url stays unset. -/
theorem claim_C5_create_no_location (t : Transport) (s : Session)
    (hu : urlFalsy s.url = true)
    (hloc : (t.create s.createCount).location = none) :
    (upload_chunk t s).2 = some (.communicationError
      ("Attempt to retrieve create file url with status " ++
        toString (t.create s.createCount).statusCode)
      (t.create s.createCount).statusCode (t.create s.createCount).body) ∧
    (upload_chunk t s).1.sentCount = s.sentCount ∧
    (upload_chunk t s).1.retried = 0 ∧
    (upload_chunk t s).1.url = s.url := by
  unfold upload_chunk create_url
  rw [if_pos hu]
  dsimp only
  rw [hloc]
  exact ⟨rfl, rfl, rfl, rfl⟩

/-- Claim C5 witness: a 200 creation response with no location header
surfaces the communication error with status 200 and body, with no
transmission attempted. -/
theorem claim_C5_witness :
    urlFalsy c5s.url = true ∧
    (upload_chunk c5t c5s).2 = some (.communicationError
      ("Attempt to retrieve create file url with status " ++ toString 200)
      200 "nobody") ∧
    (upload_chunk c5t c5s).1.sentCount = 0 := by
  obtain ⟨h1, h2, h3, h4⟩ := claim_C5_create_no_location c5t c5s rfl rfl
  exact ⟨rfl, h1, h2⟩

/-- Claim C7 counterexample: a successful chunk response may decrease the
recorded offset: starting from offset 1000, a 204 response with
upload-offset 512 leaves the session at offset 512 < 1000, so the engine
does decrease its recorded offset. -/
theorem claim_C7_counterexample :
    c7s.offset = 1000 ∧
    (upload_chunk c7t c7s).1.offset = 512 ∧
    (upload_chunk c7t c7s).1.offset < c7s.offset := by
  have h := (upload_chunk_success c7t c7s 512 rfl rfl rfl).1
  refine ⟨rfl, h, ?_⟩
  rw [h]
  decide

/-- Claim C7 (amended): the engine copies server-reported offsets
verbatim; the recorded offset is non-decreasing provided the server
never reports a value below it (no regression): if every transmission
response offset and every offset-query result is at least `c`, an
`upload_chunk` call from an offset at least `c` on an established url
ends at an offset at least `c`. -/
theorem claim_C7_amended_no_regression (t : Transport) (s : Session) (c : Int)
    (hu : urlFalsy s.url = false)
    (Hp : ∀ n v, (t.perform n).uploadOffset = some v → c ≤ v)
    (Hg : ∀ n v, t.getOffset n = Except.ok v → c ≤ v)
    (hc : c ≤ s.offset) : c ≤ (upload_chunk t s).1.offset :=
  upload_chunk_offset_le t s c hu Hp Hg hc

/-- Claim C7 witness: with every server-reported offset at least 5 and a
session at offset 5, the offset after `upload_chunk` is still at least
5. -/
theorem claim_C7_witness :
    (5 : Int) ≤ c7ws.offset ∧ (5 : Int) ≤ (upload_chunk c7wt c7ws).1.offset := by
  refine ⟨by decide, ?_⟩
  apply claim_C7_amended_no_regression c7wt c7ws 5 rfl
  · intro n v h
    simp only [c7wt] at h
    injection h with h
    omega
  · intro n v h
    simp only [c7wt] at h
    injection h with h
    omega
  · decide

/-- Claim C8: a transmission is classified successful exactly when the
status code is 204; every other status makes `_verify_upload` raise
`TusUploadFailed` carrying the status code and the response body,
uniformly for every non-204 value. -/
theorem claim_C8_verify_status (r : Response) :
    (verify_upload r = Except.ok true ↔ r.statusCode = 204) ∧
    (r.statusCode ≠ 204 →
      verify_upload r = Except.error (.uploadFailed "" r.statusCode r.body)) := by
  refine ⟨⟨?_, ?_⟩, ?_⟩
  · intro h
    by_cases hc : r.statusCode = 204
    · exact hc
    · unfold verify_upload at h
      rw [if_neg hc] at h
      cases h
  · intro hc
    unfold verify_upload
    rw [if_pos hc]
  · intro hc
    unfold verify_upload
    rw [if_neg hc]

/-- Claim C8 witness: a 500 response raises the upload failure with its
status and body, and a 204 response verifies. -/
theorem claim_C8_witness :
    verify_upload ⟨500, none, "b"⟩
      = Except.error (.uploadFailed "" 500 "b") ∧
    verify_upload ⟨204, some 1, ""⟩ = Except.ok true :=
  ⟨(claim_C8_verify_status ⟨500, none, "b"⟩).2 (by decide),
   (claim_C8_verify_status ⟨204, some 1, ""⟩).1.mpr rfl⟩

/-- Claim C10: `upload(stop_at = 0)` behaves exactly like `upload()` with
no stop_at: the truthiness test `stop_at or get_file_size()` resolves 0
to the file size, so 0 cannot request an immediate no-op. -/
theorem claim_C10_stop_at_zero (t : Transport) (fuel : Nat) (s : Session) :
    upload t (some 0) fuel s = upload t none fuel s := by
  unfold upload resolve_stop_at
  dsimp only
  rw [if_pos rfl]

/-- Server that rejects every transmission with a constant 500. -/
def c1t : Transport where
  perform := fun _ => ⟨500, none, "boom"⟩
  sperform := fun _ _ => ⟨500, none, "boom"⟩
  getOffset := fun _ => Except.ok 0
  create := fun _ => ⟨201, some "/f", ""⟩
  fileSize := 100

def c1s : Session := { wBase with retries := 2 }

/-- Server that rejects the first transmission with 500 and body first,
every later one with 502 and body second. -/
def c2t : Transport where
  perform := fun n => if n = 0 then ⟨500, none, "first"⟩ else ⟨502, none, "second"⟩
  sperform := fun n _ =>
    if n = 0 then ⟨500, none, "first"⟩ else ⟨502, none, "second"⟩
  getOffset := fun _ => Except.ok 0
  create := fun _ => ⟨201, some "/f", ""⟩
  fileSize := 100

def c2s : Session := { wBase with retries := 1 }

/-- Server that accepts everything, with a fresh session. -/
def c6t : Transport where
  perform := fun _ => ⟨204, some 100, ""⟩
  sperform := fun _ _ => ⟨204, some 100, ""⟩
  getOffset := fun _ => Except.ok 0
  create := fun _ => ⟨201, some "/f", ""⟩
  fileSize := 100

def c6s : Session := { wBase with url := none }

def c9t : Transport where
  perform := fun _ => ⟨204, some 10, ""⟩
  sperform := fun _ _ => ⟨204, some 10, ""⟩
  getOffset := fun _ => Except.ok 0
  create := fun _ => ⟨201, some "/f", ""⟩
  fileSize := 100

def c9ss : StreamSession := { toSession := wBase, chunk := some [1, 2, 3] }

/-- Claim C1: with retry limit N, every transmission failing and every
recovery offset query succeeding, one `upload_chunk` call performs
exactly N + 1 transmission attempts (1 initial + N retries) and then
surfaces a `TusUploadFailed` error. -/
theorem claim_C1_retry_budget (t : Transport) (s : Session) (N : Nat)
    (hN : s.retries = N) (hu : urlFalsy s.url = false)
    (Hp : ∀ n, (t.perform n).statusCode ≠ 204)
    (Hg : ∀ n, ∃ v, t.getOffset n = Except.ok v) :
    (upload_chunk t s).1.sentCount = s.sentCount + (N + 1) ∧
    ∃ st bd, (upload_chunk t s).2 = some (.uploadFailed "" st bd) := by
  subst hN
  obtain ⟨h1, h2⟩ := upload_chunk_allfail t s hu Hp Hg
  exact ⟨by omega, ⟨_, _, h2⟩⟩

/-- Claim C1 witness: retry limit 2, always-failing server: exactly 3
transmissions and an upload failure. -/
theorem claim_C1_witness :
    (∀ n, (c1t.perform n).statusCode ≠ 204) ∧
    (∀ n, ∃ v, c1t.getOffset n = Except.ok v) ∧
    (upload_chunk c1t c1s).1.sentCount = c1s.sentCount + (2 + 1) ∧
    ∃ st bd, (upload_chunk c1t c1s).2 = some (.uploadFailed "" st bd) := by
  have h := claim_C1_retry_budget c1t c1s 2 rfl rfl
    (fun n => by simp [c1t]) (fun n => ⟨0, rfl⟩)
  exact ⟨fun n => by simp [c1t], fun n => ⟨0, rfl⟩, h.1, h.2⟩

/-- Claim C2 counterexample: with retry limit 1, a first failure 500
with body first and a second failure 502 with body second, the error
surfaced by `upload_chunk` is the second (last) transmission failure,
not the original first one as the claim states. -/
theorem claim_C2_counterexample :
    (upload_chunk c2t c2s).2 = some (.uploadFailed "" 502 "second") ∧
    TusError.uploadFailed "" 502 "second" ≠ TusError.uploadFailed "" 500 "first" := by
  constructor
  · exact (upload_chunk_allfail c2t c2s rfl
      (fun n => by by_cases h : n = 0 <;> simp [c2t, h])
      (fun n => ⟨0, rfl⟩)).2
  · decide

/-- Claim C2 (amended): when the retry budget is exhausted with every
transmission failing and every offset query succeeding, the error
propagated by `upload_chunk` is the failure of the last transmission
attempt (index sentCount + N), not the original first error. -/
theorem claim_C2_amended_last_error (t : Transport) (s : Session) (N : Nat)
    (hN : s.retries = N) (hu : urlFalsy s.url = false)
    (Hp : ∀ n, (t.perform n).statusCode ≠ 204)
    (Hg : ∀ n, ∃ v, t.getOffset n = Except.ok v) :
    (upload_chunk t s).2 = some (.uploadFailed ""
      (t.perform (s.sentCount + N)).statusCode
      (t.perform (s.sentCount + N)).body) := by
  subst hN
  exact (upload_chunk_allfail t s hu Hp Hg).2

/-- Claim C2 witness: the amended statement instantiated at the concrete
two-failure server. -/
theorem claim_C2_witness :
    (∀ n, (c2t.perform n).statusCode ≠ 204) ∧
    (upload_chunk c2t c2s).2 = some (.uploadFailed ""
      (c2t.perform (c2s.sentCount + 1)).statusCode
      (c2t.perform (c2s.sentCount + 1)).body) := by
  refine ⟨fun n => by by_cases h : n = 0 <;> simp [c2t, h], ?_⟩
  exact claim_C2_amended_last_error c2t c2s 1 rfl rfl
    (fun n => by by_cases h : n = 0 <;> simp [c2t, h])
    (fun n => ⟨0, rfl⟩)

/-- Claim C6: over a whole `upload` run from a session that has not yet
issued a creation call, the creation call is issued at most once, and a
non-empty upload url is never re-derived or changed, no matter how many
chunks are transmitted or retried. -/
theorem claim_C6_create_once (t : Transport) (stopAtArg : Option Int)
    (fuel : Nat) (s : Session)
    (hcl : s.clientUrl ≠ "") (hcc : s.createCount = 0) :
    (upload t stopAtArg fuel s).1.createCount ≤ 1 ∧
    (∀ u, s.url = some u → u ≠ "" →
      (upload t stopAtArg fuel s).1.url = some u) := by
  unfold upload
  constructor
  · refine upload_loop_create t fuel _ ?_ ?_ ?_
    · exact hcl
    · show s.createCount ≤ 1
      omega
    · intro _
      exact hcc
  · intro u hu hne
    exact upload_loop_url t fuel _ u hu hne

/-- Claim C6 witness: a fresh session uploading one accepted chunk ends
with exactly at most one creation call. -/
theorem claim_C6_witness :
    c6s.clientUrl ≠ "" ∧ c6s.createCount = 0 ∧
    (upload c6t (some 100) 3 c6s).1.createCount ≤ 1 := by
  have h := claim_C6_create_once c6t (some 100) 3 c6s (by decide) rfl
  exact ⟨by decide, rfl, h.1⟩

/-- Claim C9: for the same session state and transport outcomes, the
streaming `upload_chunk` behaves exactly as the synchronous one: same
resulting session, same error, the injected chunk untouched; the only
difference is that the transmitted bytes are the injected chunk. -/
theorem claim_C9_stream_equiv (t : Transport) (ss : StreamSession)
    (Hsp : ∀ n c, t.sperform n c = t.perform n) :
    (supload_chunk t ss).1.toSession = (upload_chunk t ss.toSession).1 ∧
    (supload_chunk t ss).1.chunk = ss.chunk ∧
    (supload_chunk t ss).2 = (upload_chunk t ss.toSession).2 := by
  by_cases hu : urlFalsy ss.url = true
  · unfold supload_chunk upload_chunk screate_url create_url
    rw [if_pos hu, if_pos hu]
    dsimp only
    rcases hloc : (t.create ss.createCount).location with _ | loc
    · exact ⟨rfl, rfl, rfl⟩
    · dsimp only
      exact sfinish_equiv t Hsp _
  · unfold supload_chunk upload_chunk
    rw [if_neg hu, if_neg hu]
    exact sfinish_equiv t Hsp { ss with retried := 0 }

/-- Claim C9 witness: the equivalence instantiated at a concrete
transport whose stream and pull transmissions agree. -/
theorem claim_C9_witness :
    (∀ n c, c9t.sperform n c = c9t.perform n) ∧
    (supload_chunk c9t c9ss).1.toSession = (upload_chunk c9t c9ss.toSession).1 ∧
    (supload_chunk c9t c9ss).2 = (upload_chunk c9t c9ss.toSession).2 := by
  have h := claim_C9_stream_equiv c9t c9ss (fun n c => rfl)
  exact ⟨fun n c => rfl, h.1, h.2.2⟩

end TusClient
